import Mathlib

/-!
# TRPG-World backend: verified shallow embedding

This file embeds the core services of the TRPG-World backend
(`src/backend/app/services/`) as executable Lean definitions and proves
properties about them:

* `dice_system.py` — `DiceSystem.determine_outcome`,
  `DiceSystem.calculate_ability_modifier`;
* `stream_buffer.py` — `StreamBuffer.add_token`, `mark_complete`,
  `mark_error`, `get_tokens`, `get_full_text`, and the registry sweep
  `StreamBufferManager.cleanup_old_buffers`;
* `session_state_manager.py` — `SessionStateManager.initialize_round`,
  `record_dice_roll`, `check_all_rolled`, `get_dice_results`,
  `reset_round`, `clear_session`;
* `ai_gm_service_v2.py` — `AIGMServiceV2.confirm_dice_roll` and
  `AIGMServiceV2._save_narrative_to_database`, over a list model of the
  `action_judgments` / `story_logs` tables;
* `ai_nodes/judgment_node.py` — `analyze_and_judge_actions` and
  `_calculate_modifier`, with the external LLM judge call modelled as an
  explicit input (either a parsed difficulty map or a raised exception).

Python integers are embedded as `Int` (Python's `//` is `Int.fdiv`,
round toward negative infinity); Python dictionaries keyed by ids are
embedded as functions into `Option`; Python sets of ids as `Finset Int`;
the SQL tables as lists of records.
-/

namespace TRPGWorld

/-! ## Dice system (`app/services/dice_system.py`) -/

/-- `app/schemas.py`: `JudgmentOutcome` enumeration. -/
inductive JudgmentOutcome where
  | critical_failure
  | failure
  | success
  | critical_success
deriving DecidableEq, Repr

/-- `DiceSystem.determine_outcome` (dice_system.py lines 141-180):
die 1 is an automatic critical failure, die 20 an automatic critical
success, otherwise compare `dice_result + modifier` with `difficulty`. -/
def determine_outcome (dice_result modifier difficulty : Int) : JudgmentOutcome :=
  if dice_result = 1 then JudgmentOutcome.critical_failure
  else if dice_result = 20 then JudgmentOutcome.critical_success
  else if dice_result + modifier ≥ difficulty then JudgmentOutcome.success
  else JudgmentOutcome.failure

/-- `DiceSystem.calculate_ability_modifier` (dice_system.py line 61):
`(ability_score - 10) // 2`, Python floor division. -/
def calculate_ability_modifier (ability_score : Int) : Int :=
  (ability_score - 10).fdiv 2

/-- `ai_nodes/judgment_node.py` line 133 computes the same formula
`(ability_score - 10) // 2` for the modifier used in phase 1. -/
def judgment_node_modifier_formula (ability_score : Int) : Int :=
  (ability_score - 10).fdiv 2

/-- C1: the outcome resolver matches the reference definition. For every
die in 1..20, every integer modifier and every difficulty in 5..30:
die 1 yields `critical_failure` and die 20 yields `critical_success`
regardless of modifier and difficulty; for die in 2..19 the result is
`success` iff `die + modifier ≥ difficulty`, `failure` iff
`die + modifier < difficulty`, and never a critical outcome. -/
theorem determine_outcome_matches_reference
    (die modifier difficulty : Int)
    (hdie : 1 ≤ die ∧ die ≤ 20) (hdc : 5 ≤ difficulty ∧ difficulty ≤ 30) :
    (die = 1 → determine_outcome die modifier difficulty = JudgmentOutcome.critical_failure) ∧
    (die = 20 → determine_outcome die modifier difficulty = JudgmentOutcome.critical_success) ∧
    (2 ≤ die → die ≤ 19 →
      (determine_outcome die modifier difficulty = JudgmentOutcome.success ↔
        difficulty ≤ die + modifier) ∧
      (determine_outcome die modifier difficulty = JudgmentOutcome.failure ↔
        die + modifier < difficulty) ∧
      determine_outcome die modifier difficulty ≠ JudgmentOutcome.critical_failure ∧
      determine_outcome die modifier difficulty ≠ JudgmentOutcome.critical_success) := by
  obtain ⟨h1, h2⟩ := hdie
  refine ⟨?_, ?_, ?_⟩
  · intro h
    simp [determine_outcome, h]
  · intro h
    have : die ≠ 1 := by omega
    simp [determine_outcome, h, this]
  · intro hlo hhi
    have hne1 : die ≠ 1 := by omega
    have hne20 : die ≠ 20 := by omega
    by_cases hcmp : difficulty ≤ die + modifier
    · simp [determine_outcome, hne1, hne20, hcmp]
    · simp [determine_outcome, hne1, hne20, hcmp]
      omega

/-- Witness for `determine_outcome_matches_reference` at
die = 12, modifier = 3, difficulty = 15 (the spec's worked example). -/
theorem determine_outcome_matches_reference_witness :
    ((1:Int) ≤ 12 ∧ (12:Int) ≤ 20) ∧ ((5:Int) ≤ 15 ∧ (15:Int) ≤ 30) ∧
    determine_outcome 12 3 15 = JudgmentOutcome.success := by
  refine ⟨by decide, by decide, ?_⟩
  have h := determine_outcome_matches_reference 12 3 15 (by decide) (by decide)
  exact (h.2.2 (by decide) (by decide)).1.mpr (by decide)

/-- C5: the ability-modifier calculator computes
`floor((ability_score - 10) / 2)` with floor (round-toward-negative-
infinity) division: `2*m ≤ s - 10 < 2*m + 2` characterises the result
`m`, it equals the rational floor, and the spec's example values hold.
The phase-1 node (`judgment_node._calculate_modifier`) uses the same
formula. -/
theorem calculate_ability_modifier_is_floor (s : Int) :
    2 * calculate_ability_modifier s ≤ s - 10 ∧
    s - 10 < 2 * calculate_ability_modifier s + 2 ∧
    calculate_ability_modifier s = ⌊(((s : ℚ) - 10) / 2 : ℚ)⌋ ∧
    judgment_node_modifier_formula s = calculate_ability_modifier s ∧
    calculate_ability_modifier 10 = 0 ∧
    calculate_ability_modifier 18 = 4 ∧
    calculate_ability_modifier 8 = -1 ∧
    calculate_ability_modifier 7 = -2 := by
  have hfd : calculate_ability_modifier s = (s - 10) / 2 := by
    unfold calculate_ability_modifier
    exact Int.fdiv_eq_ediv _ (by omega)
  have hdm := Int.ediv_add_emod (s - 10) 2
  have hnn : 0 ≤ (s - 10) % 2 := Int.emod_nonneg _ (by omega)
  have hlt : (s - 10) % 2 < 2 := Int.emod_lt_of_pos _ (by omega)
  have hle : 2 * calculate_ability_modifier s ≤ s - 10 := by omega
  have hlt2 : s - 10 < 2 * calculate_ability_modifier s + 2 := by omega
  refine ⟨hle, hlt2, ?_, rfl, by decide, by decide, by decide, by decide⟩
  symm
  rw [Int.floor_eq_iff]
  constructor
  · rw [le_div_iff₀ (by norm_num)]
    have : (2 : ℚ) * (calculate_ability_modifier s : ℚ) ≤ (s : ℚ) - 10 := by
      exact_mod_cast hle
    linarith
  · rw [div_lt_iff₀ (by norm_num)]
    have : ((s : ℚ) - 10) < 2 * (calculate_ability_modifier s : ℚ) + 2 := by
      exact_mod_cast hlt2
    linarith

/-! ## Stream buffer (`app/services/stream_buffer.py`) -/

/-- `StreamBuffer` state (stream_buffer.py lines 37-52): token list,
completion flag, optional error message, running character count and
the character ceiling.  `created_at` is modelled as an age parameter at
the registry sweep (see `cleanup_old_buffers`). -/
structure StreamBuffer where
  session_id : Int
  tokens : List String
  is_complete : Bool
  error : Option String
  total_chars : Nat
  max_size : Nat
deriving DecidableEq, Repr

/-- Python truthiness of an `Optional[str]`: `None` and the empty string
are falsy (used by the guard `if self.is_complete or self.error`). -/
def strTruthy : Option String → Bool
  | none => false
  | some s => !(s == "")

/-- `StreamBuffer.__init__`: empty token list, not complete, no error,
zero characters. -/
def StreamBuffer.init (sid : Int) (ms : Nat := 100000) : StreamBuffer :=
  { session_id := sid, tokens := [], is_complete := false, error := none,
    total_chars := 0, max_size := ms }

/-- `StreamBuffer.add_token` (stream_buffer.py lines 56-92): reject when
complete or errored; on size overflow reject and force completion;
otherwise append the token and count its characters. -/
def StreamBuffer.add_token (b : StreamBuffer) (token : String) : Bool × StreamBuffer :=
  if b.is_complete || strTruthy b.error then (false, b)
  else if b.max_size < b.total_chars + token.length then
    (false, { b with is_complete := true })
  else
    (true, { b with tokens := b.tokens ++ [token],
                    total_chars := b.total_chars + token.length })

/-- `StreamBuffer.get_tokens`: tail slice from a (clamped) cursor. -/
def StreamBuffer.get_tokens (b : StreamBuffer) (start_index : Int) : List String :=
  b.tokens.drop start_index.toNat

/-- `StreamBuffer.mark_complete`. -/
def StreamBuffer.mark_complete (b : StreamBuffer) : StreamBuffer :=
  { b with is_complete := true }

/-- `StreamBuffer.mark_error` (stream_buffer.py lines 126-140): sets the
error message AND the completion flag. -/
def StreamBuffer.mark_error (b : StreamBuffer) (e : String) : StreamBuffer :=
  { b with error := some e, is_complete := true }

/-- `StreamBuffer.get_full_text`: concatenation of all tokens. -/
def StreamBuffer.get_full_text (b : StreamBuffer) : String :=
  String.join b.tokens

/-- Removal condition of `StreamBufferManager.cleanup_old_buffers`
(stream_buffer.py lines 270-273): a buffer is swept iff it is complete
and its age exceeds the grace window. -/
def shouldCleanup (b : StreamBuffer) (age max_age : ℚ) : Bool :=
  b.is_complete && decide (max_age < age)

/-- `StreamBufferManager.cleanup_old_buffers` over the registry map,
with `age` giving each session's buffer age in seconds. -/
def cleanup_old_buffers (bufs : List (Int × StreamBuffer)) (age : Int → ℚ)
    (max_age : ℚ) : List (Int × StreamBuffer) :=
  bufs.filter (fun p => !shouldCleanup p.2 (age p.1) max_age)

/-- Buffer states reachable from a fresh buffer through the mutating
operations of `StreamBuffer`. -/
inductive ReachableBuffer : StreamBuffer → Prop where
  | init (sid : Int) (ms : Nat) : ReachableBuffer (StreamBuffer.init sid ms)
  | add (b : StreamBuffer) (t : String) :
      ReachableBuffer b → ReachableBuffer (b.add_token t).2
  | complete (b : StreamBuffer) :
      ReachableBuffer b → ReachableBuffer b.mark_complete
  | fail (b : StreamBuffer) (m : String) :
      ReachableBuffer b → ReachableBuffer (b.mark_error m)

/-- In every reachable buffer state, a set error implies the completion
flag is set. -/
theorem reachable_error_implies_complete (b : StreamBuffer)
    (hb : ReachableBuffer b) : b.error ≠ none → b.is_complete = true := by
  induction hb with
  | init sid ms => intro h; exact absurd rfl h
  | add b t _ ih =>
      unfold StreamBuffer.add_token
      split
      · exact ih
      · split
        · intro _; rfl
        · rename_i hguard _
          intro herr
          have hcomp : b.is_complete = false := by
            by_contra hc
            simp [Bool.not_eq_false] at hc
            simp [hc] at hguard
          have := ih herr
          rw [this] at hcomp
          exact absurd hcomp (by simp)
  | complete b _ _ => intro _; rfl
  | fail b m _ _ => intro _; rfl

/-- C6: `add_token` returns `false` and leaves the token list unchanged
when the buffer is complete or errored, or when appending would push the
character count over the ceiling; in the overflow case the buffer is
additionally marked complete while its error stays unset, so every
further `add_token` also returns `false`. -/
theorem add_token_reject_spec (b : StreamBuffer) (t : String) :
    (b.is_complete = true ∨ strTruthy b.error = true →
      b.add_token t = (false, b)) ∧
    (b.is_complete = false → strTruthy b.error = false →
      b.max_size < b.total_chars + t.length →
      b.add_token t = (false, { b with is_complete := true }) ∧
      ({ b with is_complete := true } : StreamBuffer).tokens = b.tokens ∧
      ({ b with is_complete := true } : StreamBuffer).error = b.error ∧
      strTruthy ({ b with is_complete := true } : StreamBuffer).error = false ∧
      (∀ t2, ({ b with is_complete := true } : StreamBuffer).add_token t2 =
        (false, { b with is_complete := true }))) := by
  constructor
  · intro h
    unfold StreamBuffer.add_token
    rcases h with h | h <;> simp [h]
  · intro h1 h2 h3
    refine ⟨?_, rfl, rfl, h2, ?_⟩
    · unfold StreamBuffer.add_token
      simp [h1, h2, h3]
    · intro t2
      unfold StreamBuffer.add_token
      simp

/-- Witness for `add_token_reject_spec`: a buffer holding 2 of 3 allowed
characters rejects a 2-character token, is forced complete, and then
rejects everything. -/
theorem add_token_reject_spec_witness :
    (StreamBuffer.mk 1 ["ab"] false none 2 3).is_complete = false ∧
    strTruthy (StreamBuffer.mk 1 ["ab"] false none 2 3).error = false ∧
    (StreamBuffer.mk 1 ["ab"] false none 2 3).max_size <
      (StreamBuffer.mk 1 ["ab"] false none 2 3).total_chars + "xy".length ∧
    (StreamBuffer.mk 1 ["ab"] false none 2 3).add_token "xy" =
      (false, StreamBuffer.mk 1 ["ab"] true none 2 3) ∧
    (StreamBuffer.mk 1 ["ab"] true none 2 3).add_token "z" =
      (false, StreamBuffer.mk 1 ["ab"] true none 2 3) := by
  have h := (add_token_reject_spec (StreamBuffer.mk 1 ["ab"] false none 2 3)
    "xy").2 rfl rfl (by decide)
  exact ⟨rfl, rfl, by decide, h.1, h.2.2.2.2 "z"⟩

/-- C10: in every reachable buffer state, a set error implies the buffer
is complete (`mark_error` sets both), so an errored buffer rejects all
further `add_token` calls and is eligible for the registry's age-based
sweep, which removes exactly the buffers that are complete and older
than the grace window. -/
theorem errored_buffer_complete_and_collectable (b : StreamBuffer)
    (hb : ReachableBuffer b) (herr : b.error ≠ none) :
    b.is_complete = true ∧
    (∀ t, b.add_token t = (false, b)) ∧
    (∀ age max_age : ℚ, max_age < age → shouldCleanup b age max_age = true) ∧
    (∀ (bufs : List (Int × StreamBuffer)) (age : Int → ℚ) (max_age : ℚ)
       (sid : Int), max_age < age sid →
        (sid, b) ∉ cleanup_old_buffers bufs age max_age) ∧
    (∀ (b' : StreamBuffer) (age max_age : ℚ),
        shouldCleanup b' age max_age = true →
        b'.is_complete = true ∧ max_age < age) := by
  have hcomp : b.is_complete = true := reachable_error_implies_complete b hb herr
  refine ⟨hcomp, ?_, ?_, ?_, ?_⟩
  · intro t
    unfold StreamBuffer.add_token
    simp [hcomp]
  · intro age max_age hage
    unfold shouldCleanup
    simp [hcomp, hage]
  · intro bufs age max_age sid hage hmem
    rw [cleanup_old_buffers, List.mem_filter] at hmem
    have : shouldCleanup b (age sid) max_age = true := by
      unfold shouldCleanup
      simp [hcomp, hage]
    simp [this] at hmem
  · intro b' age max_age h
    unfold shouldCleanup at h
    simp at h
    exact ⟨h.1, h.2⟩

/-- Witness for `errored_buffer_complete_and_collectable`: a freshly
errored buffer is complete and rejects a token. -/
theorem errored_buffer_complete_and_collectable_witness :
    ((StreamBuffer.init 7 100).mark_error "boom").is_complete = true ∧
    (((StreamBuffer.init 7 100).mark_error "boom").add_token "x").1 = false := by
  have h := errored_buffer_complete_and_collectable
    ((StreamBuffer.init 7 100).mark_error "boom")
    (ReachableBuffer.fail _ "boom" (ReachableBuffer.init 7 100))
    (by decide)
  exact ⟨h.1, by rw [h.2.1 "x"]⟩

/-! ## Session state manager (`app/services/session_state_manager.py`) -/

/-- `RoundState` (session_state_manager.py lines 28-47), parameterised by
the analysis payload type (a Python `dict[str, Any]`). -/
structure RoundState (α : Type) where
  round_id : Nat
  pending_characters : Finset Int
  rolled_characters : Finset Int
  analyses : Int → Option α
  dice_results : Int → Option Int

/-- `SessionStateManager` in-memory state: `_session_states` and
`_round_counters`, both dictionaries keyed by session id. -/
structure SessionStateManager (α : Type) where
  session_states : Int → Option (RoundState α)
  round_counters : Int → Option Nat

/-- `SessionStateManager.__init__`: empty state. -/
def SessionStateManager.empty (α : Type) : SessionStateManager α :=
  { session_states := fun _ => none, round_counters := fun _ => none }

/-- `SessionStateManager.initialize_round` (lines 74-116): increment the
per-session round counter (from 0 if absent) and replace the session's
round state with a fresh one. -/
def SessionStateManager.initialize_round (m : SessionStateManager α)
    (session_id : Int) (character_ids : List Int) (analyses : Int → Option α) :
    Nat × SessionStateManager α :=
  let round_id := (m.round_counters session_id).getD 0 + 1
  (round_id,
   { session_states := fun s =>
       if s = session_id then
         some { round_id := round_id,
                pending_characters := character_ids.toFinset,
                rolled_characters := ∅,
                analyses := analyses,
                dice_results := fun _ => none }
       else m.session_states s,
     round_counters := fun s =>
       if s = session_id then some round_id else m.round_counters s })

/-- `SessionStateManager.record_dice_roll` (lines 118-163): `False` and
no mutation when the session has no round state or the character is not
pending; otherwise move the character from pending to rolled and store
the die. -/
def SessionStateManager.record_dice_roll (m : SessionStateManager α)
    (session_id character_id : Int) (dice_result : Int) :
    Bool × SessionStateManager α :=
  match m.session_states session_id with
  | none => (false, m)
  | some rs =>
    if character_id ∈ rs.pending_characters then
      (true,
       { m with session_states := fun s =>
           if s = session_id then
             some { rs with
                    pending_characters := rs.pending_characters.erase character_id,
                    rolled_characters := insert character_id rs.rolled_characters,
                    dice_results := fun c =>
                      if c = character_id then some dice_result
                      else rs.dice_results c }
           else m.session_states s })
    else (false, m)

/-- `SessionStateManager.check_all_rolled` (lines 211-238): `False` for
an unknown session, otherwise whether the pending set is empty. -/
def SessionStateManager.check_all_rolled (m : SessionStateManager α)
    (session_id : Int) : Bool :=
  match m.session_states session_id with
  | none => false
  | some rs => rs.pending_characters.card == 0

/-- `SessionStateManager.get_dice_results` (lines 240-257): the round's
result map, empty for an unknown session. -/
def SessionStateManager.get_dice_results (m : SessionStateManager α)
    (session_id : Int) : Int → Option Int :=
  match m.session_states session_id with
  | none => fun _ => none
  | some rs => rs.dice_results

/-- `SessionStateManager.reset_round` (lines 340-361): delete the round
state (the counter survives). -/
def SessionStateManager.reset_round (m : SessionStateManager α)
    (session_id : Int) : Bool × SessionStateManager α :=
  match m.session_states session_id with
  | none => (false, m)
  | some _ =>
      (true,
       { m with session_states := fun s =>
           if s = session_id then none else m.session_states s })

/-- `SessionStateManager.clear_session` (lines 363-388): delete both the
round state and the round counter. -/
def SessionStateManager.clear_session (m : SessionStateManager α)
    (session_id : Int) : Bool × SessionStateManager α :=
  let cleared := (m.session_states session_id).isSome
               || (m.round_counters session_id).isSome
  (cleared,
   { session_states := fun s => if s = session_id then none else m.session_states s,
     round_counters := fun s => if s = session_id then none else m.round_counters s })

/-- Scenario state: `open_round(room, [A, B, C])` on a fresh manager. -/
def dupScenarioM0 (α : Type) (room A B C : Int) (an : Int → Option α) :
    SessionStateManager α :=
  ((SessionStateManager.empty α).initialize_round room [A, B, C] an).2

/-- Scenario state after `record_roll(room, A, 5)`. -/
def dupScenarioM1 (α : Type) (room A B C : Int) (an : Int → Option α) :
    SessionStateManager α :=
  ((dupScenarioM0 α room A B C an).record_dice_roll room A 5).2

/-- Scenario state after `record_roll(room, B, dieB)` on top. -/
def dupScenarioM2 (α : Type) (room A B C : Int) (an : Int → Option α)
    (dieB : Int) : SessionStateManager α :=
  ((dupScenarioM1 α room A B C an).record_dice_roll room B dieB).2

/-- Scenario state after `record_roll(room, C, dieC)` on top. -/
def dupScenarioM3 (α : Type) (room A B C : Int) (an : Int → Option α)
    (dieB dieC : Int) : SessionStateManager α :=
  ((dupScenarioM2 α room A B C an dieB).record_dice_roll room C dieC).2

/-- C8: `record_dice_roll` returns `false` and changes nothing when the
session is unknown or the character is not pending; and in the spec's
scenario — `open_round(room, [A, B, C])`, `record_roll(room, A, 5)` —
a duplicate `record_roll(room, A, 7)` returns `false` leaving the state
(and the stored result 5) intact, and `check_all_rolled` stays `false`
until B and C also roll, then becomes `true`. -/
theorem record_dice_roll_duplicate_rejection {α : Type}
    (m : SessionStateManager α) (sid cid die : Int)
    (room A B C dieB dieC : Int) (an : Int → Option α)
    (hAB : A ≠ B) (hAC : A ≠ C) (hBC : B ≠ C) :
    (m.session_states sid = none →
      m.record_dice_roll sid cid die = (false, m)) ∧
    (∀ rs, m.session_states sid = some rs → cid ∉ rs.pending_characters →
      m.record_dice_roll sid cid die = (false, m)) ∧
    ((dupScenarioM0 α room A B C an).record_dice_roll room A 5).1 = true ∧
    (dupScenarioM1 α room A B C an).record_dice_roll room A 7 =
      (false, dupScenarioM1 α room A B C an) ∧
    (dupScenarioM1 α room A B C an).get_dice_results room A = some 5 ∧
    (dupScenarioM1 α room A B C an).check_all_rolled room = false ∧
    (dupScenarioM2 α room A B C an dieB).check_all_rolled room = false ∧
    (dupScenarioM3 α room A B C an dieB dieC).check_all_rolled room = true := by
  have hgen1 : ∀ (m' : SessionStateManager α) (sid' cid' die' : Int),
      m'.session_states sid' = none →
      m'.record_dice_roll sid' cid' die' = (false, m') := by
    intro m' sid' cid' die' h
    unfold SessionStateManager.record_dice_roll
    rw [h]
  have hgen2 : ∀ (m' : SessionStateManager α) (sid' cid' die' : Int) rs,
      m'.session_states sid' = some rs → cid' ∉ rs.pending_characters →
      m'.record_dice_roll sid' cid' die' = (false, m') := by
    intro m' sid' cid' die' rs h hnp
    unfold SessionStateManager.record_dice_roll
    rw [h]
    simp [hnp]
  -- the fixed states of the scenario
  have h0 : (dupScenarioM0 α room A B C an).session_states room =
      some { round_id := 1,
             pending_characters := ([A, B, C] : List Int).toFinset,
             rolled_characters := ∅, analyses := an,
             dice_results := fun _ => none } := by
    simp [dupScenarioM0, SessionStateManager.initialize_round,
      SessionStateManager.empty]
  have hAmem : A ∈ ([A, B, C] : List Int).toFinset := by simp
  have h1 : (dupScenarioM1 α room A B C an).session_states room =
      some { round_id := 1,
             pending_characters := (([A, B, C] : List Int).toFinset).erase A,
             rolled_characters := insert A ∅, analyses := an,
             dice_results := fun c => if c = A then some 5 else none } := by
    simp [dupScenarioM1, SessionStateManager.record_dice_roll, h0, hAmem]
  have hBmem : B ∈ ((([A, B, C] : List Int).toFinset).erase A) := by
    rw [Finset.mem_erase]
    exact ⟨fun h => hAB h.symm, by simp⟩
  have h2 : (dupScenarioM2 α room A B C an dieB).session_states room =
      some { round_id := 1,
             pending_characters :=
               ((([A, B, C] : List Int).toFinset).erase A).erase B,
             rolled_characters := insert B (insert A ∅), analyses := an,
             dice_results := fun c =>
               if c = B then some dieB else if c = A then some 5 else none } := by
    unfold dupScenarioM2 SessionStateManager.record_dice_roll
    simp only [h1]
    rw [if_pos hBmem]
    simp
  have hCmem : C ∈ (((([A, B, C] : List Int).toFinset).erase A).erase B) := by
    rw [Finset.mem_erase, Finset.mem_erase]
    exact ⟨fun h => hBC h.symm, fun h => hAC h.symm, by simp⟩
  have h3 : (dupScenarioM3 α room A B C an dieB dieC).session_states room =
      some { round_id := 1,
             pending_characters :=
               (((([A, B, C] : List Int).toFinset).erase A).erase B).erase C,
             rolled_characters := insert C (insert B (insert A ∅)),
             analyses := an,
             dice_results := fun c =>
               if c = C then some dieC
               else if c = B then some dieB
               else if c = A then some 5 else none } := by
    unfold dupScenarioM3 SessionStateManager.record_dice_roll
    simp only [h2]
    rw [if_pos hCmem]
    simp
  refine ⟨hgen1 m sid cid die, fun rs h hnp => hgen2 m sid cid die rs h hnp,
    ?_, ?_, ?_, ?_, ?_, ?_⟩
  · unfold SessionStateManager.record_dice_roll
    rw [h0]
    simp [hAmem]
  · exact hgen2 _ _ _ _ _ h1 (Finset.not_mem_erase A _)
  · unfold SessionStateManager.get_dice_results
    rw [h1]
    simp
  · unfold SessionStateManager.check_all_rolled
    rw [h1]
    simp only [beq_eq_false_iff_ne, ne_eq]
    exact fun hcard => Finset.card_ne_zero_of_mem hBmem hcard
  · unfold SessionStateManager.check_all_rolled
    rw [h2]
    simp only [beq_eq_false_iff_ne, ne_eq]
    exact fun hcard => Finset.card_ne_zero_of_mem hCmem hcard
  · unfold SessionStateManager.check_all_rolled
    rw [h3]
    have hempty :
        ((((([A, B, C] : List Int).toFinset).erase A).erase B).erase C) = ∅ := by
      ext x
      simp only [Finset.mem_erase, List.mem_toFinset, List.mem_cons,
        List.not_mem_nil, or_false, Finset.not_mem_empty, iff_false]
      rintro ⟨hxC, hxB, hxA, hx⟩
      rcases hx with h | h | h
      · exact hxA h
      · exact hxB h
      · exact hxC h
    rw [hempty]
    simp

/-- Witness for `record_dice_roll_duplicate_rejection` with room 0 and
actors 1, 2, 3. -/
theorem record_dice_roll_duplicate_rejection_witness :
    ((SessionStateManager.empty Unit).record_dice_roll 0 9 1).1 = false ∧
    ((dupScenarioM0 Unit 0 1 2 3 (fun _ => none)).record_dice_roll 0 1 5).1
      = true ∧
    ((dupScenarioM1 Unit 0 1 2 3 (fun _ => none)).record_dice_roll 0 1 7).1
      = false ∧
    (dupScenarioM1 Unit 0 1 2 3 (fun _ => none)).get_dice_results 0 1
      = some 5 ∧
    (dupScenarioM1 Unit 0 1 2 3 (fun _ => none)).check_all_rolled 0 = false ∧
    (dupScenarioM3 Unit 0 1 2 3 (fun _ => none) 4 6).check_all_rolled 0
      = true := by
  have h := record_dice_roll_duplicate_rejection
    (SessionStateManager.empty Unit) 0 9 1 0 1 2 3 4 6 (fun _ => none)
    (by decide) (by decide) (by decide)
  refine ⟨?_, h.2.2.1, ?_, h.2.2.2.2.1, h.2.2.2.2.2.1, h.2.2.2.2.2.2.2⟩
  · rw [h.1 rfl]
  · rw [h.2.2.2.1]

/-- The mutating operations of `SessionStateManager`, as trace events. -/
inductive SessionOp (α : Type) where
  | open_round (session_id : Int) (character_ids : List Int)
      (an : Int → Option α)
  | roll (session_id character_id dice_result : Int)
  | reset (session_id : Int)
  | clear (session_id : Int)

/-- Apply one operation, discarding its return value. -/
def SessionStateManager.applyOp (m : SessionStateManager α) :
    SessionOp α → SessionStateManager α
  | SessionOp.open_round sid cids an => (m.initialize_round sid cids an).2
  | SessionOp.roll sid cid die => (m.record_dice_roll sid cid die).2
  | SessionOp.reset sid => (m.reset_round sid).2
  | SessionOp.clear sid => (m.clear_session sid).2

/-- Whether an operation is `clear_session` for the given session
(the one operation that also discards the round counter). -/
def clearsSession (sid : Int) : SessionOp α → Bool
  | SessionOp.clear s => s == sid
  | _ => false

/-- The round ids returned by the `initialize_round` calls for session
`sid` along a trace of operations run from state `m`. -/
def roundIdsFor (sid : Int) :
    SessionStateManager α → List (SessionOp α) → List Nat
  | _, [] => []
  | m, op :: ops =>
      (match op with
       | SessionOp.open_round s cids an =>
           if s = sid then [(m.initialize_round s cids an).1] else []
       | _ => []) ++ roundIdsFor sid (m.applyOp op) ops

/-- The current value of `_round_counters[sid]`, 0 when absent. -/
def counterOf (m : SessionStateManager α) (sid : Int) : Nat :=
  (m.round_counters sid).getD 0

theorem record_dice_roll_keeps_counters (m : SessionStateManager α)
    (s cid die : Int) :
    ((m.record_dice_roll s cid die).2).round_counters = m.round_counters := by
  unfold SessionStateManager.record_dice_roll
  cases m.session_states s with
  | none => rfl
  | some rs =>
      dsimp only
      split <;> rfl

theorem reset_round_keeps_counters (m : SessionStateManager α) (s : Int) :
    ((m.reset_round s).2).round_counters = m.round_counters := by
  unfold SessionStateManager.reset_round
  cases m.session_states s with
  | none => rfl
  | some rs => rfl

theorem counterOf_applyOp_of_not_clear (m : SessionStateManager α)
    (sid : Int) (op : SessionOp α) (hop : clearsSession sid op = false) :
    counterOf (m.applyOp op) sid = counterOf m sid ∨
    (∃ cids an, op = SessionOp.open_round sid cids an ∧
      counterOf (m.applyOp op) sid = counterOf m sid + 1) := by
  cases op with
  | open_round s cids an =>
      by_cases hs : s = sid
      · subst hs
        right
        refine ⟨cids, an, rfl, ?_⟩
        simp [SessionStateManager.applyOp, SessionStateManager.initialize_round,
          counterOf]
      · left
        simp [SessionStateManager.applyOp, SessionStateManager.initialize_round,
          counterOf, hs, Ne.symm hs]
  | roll s cid die =>
      left
      unfold counterOf SessionStateManager.applyOp
      rw [record_dice_roll_keeps_counters]
  | reset s =>
      left
      unfold counterOf SessionStateManager.applyOp
      rw [reset_round_keeps_counters]
  | clear s =>
      left
      have hs : s ≠ sid := by
        simpa [clearsSession] using hop
      simp [SessionStateManager.applyOp, SessionStateManager.clear_session,
        counterOf, hs, Ne.symm hs]

theorem roundIdsFor_all_gt {α : Type} (sid : Int) :
    ∀ (ops : List (SessionOp α)) (m : SessionStateManager α),
      (∀ op ∈ ops, clearsSession sid op = false) →
      ∀ x ∈ roundIdsFor sid m ops, counterOf m sid < x := by
  intro ops
  induction ops with
  | nil =>
      intro m _ x hx
      simp [roundIdsFor] at hx
  | cons op ops ih =>
      intro m h x hx
      have hops : ∀ o ∈ ops, clearsSession sid o = false :=
        fun o ho => h o (List.mem_cons_of_mem _ ho)
      have hop : clearsSession sid op = false := h op (List.mem_cons_self _ _)
      have hstep : ∀ (op' : SessionOp α), clearsSession sid op' = false →
          x ∈ roundIdsFor sid (m.applyOp op') ops → counterOf m sid < x := by
        intro op' hop' hx2
        have hrec := ih (m.applyOp op') hops x hx2
        rcases counterOf_applyOp_of_not_clear m sid op' hop' with hc | ⟨_, _, _, hc⟩
          <;> omega
      cases op with
      | open_round s cids an =>
          rw [roundIdsFor] at hx
          rcases List.mem_append.mp hx with hx1 | hx2
          · by_cases hs : s = sid
            · subst hs
              rw [if_pos rfl] at hx1
              have hx1' : x = (m.initialize_round s cids an).1 := by
                simpa using hx1
              have : (m.initialize_round s cids an).1 = counterOf m s + 1 := by
                simp [SessionStateManager.initialize_round, counterOf]
              omega
            · rw [if_neg hs] at hx1
              simp at hx1
          · exact hstep _ hop hx2
      | roll s cid die => exact hstep _ hop hx
      | reset s => exact hstep _ hop hx
      | clear s => exact hstep _ hop hx

theorem roundIdsFor_pairwise {α : Type} (sid : Int) :
    ∀ (ops : List (SessionOp α)) (m : SessionStateManager α),
      (∀ op ∈ ops, clearsSession sid op = false) →
      List.Pairwise (· < ·) (roundIdsFor sid m ops) := by
  intro ops
  induction ops with
  | nil =>
      intro m _
      simp [roundIdsFor]
  | cons op ops ih =>
      intro m h
      have hops : ∀ o ∈ ops, clearsSession sid o = false :=
        fun o ho => h o (List.mem_cons_of_mem _ ho)
      have hop : clearsSession sid op = false := h op (List.mem_cons_self _ _)
      cases op with
      | open_round s cids an =>
          rw [roundIdsFor]
          by_cases hs : s = sid
          · subst hs
            rw [if_pos rfl, List.singleton_append, List.pairwise_cons]
            refine ⟨?_, ih _ hops⟩
            intro x hx
            have hgt := roundIdsFor_all_gt s ops (m.applyOp _) hops x hx
            have hc : counterOf (m.applyOp (SessionOp.open_round s cids an)) s =
                counterOf m s + 1 := by
              simp [SessionStateManager.applyOp,
                SessionStateManager.initialize_round, counterOf]
            have hhead : (m.initialize_round s cids an).1 = counterOf m s + 1 := by
              simp [SessionStateManager.initialize_round, counterOf]
            omega
          · rw [if_neg hs, List.nil_append]
            exact ih _ hops
      | roll s cid die => exact ih _ hops
      | reset s => exact ih _ hops
      | clear s => exact ih _ hops

/-- C9: along any trace of manager operations that never calls
`clear_session` for the room, the round ids returned by successive
`initialize_round` calls for that room are strictly increasing (each is
strictly greater than all of its predecessors); `initialize_round`
replaces the room's round state with a fresh one; and `reset_round`
discards the round state (pending/rolled sets and results map) while
preserving the counter, so a subsequent `initialize_round` returns a
strictly greater id. -/
theorem open_round_ids_strictly_increasing {α : Type} (sid : Int)
    (ops : List (SessionOp α))
    (hclear : ∀ op ∈ ops, clearsSession sid op = false) :
    List.Pairwise (· < ·)
      (roundIdsFor sid (SessionStateManager.empty α) ops) ∧
    (∀ (m : SessionStateManager α) (cids : List Int) (an : Int → Option α),
      ((m.initialize_round sid cids an).2).session_states sid =
        some { round_id := (m.initialize_round sid cids an).1,
               pending_characters := cids.toFinset,
               rolled_characters := ∅, analyses := an,
               dice_results := fun _ => none }) ∧
    (∀ (m : SessionStateManager α),
      ((m.reset_round sid).2).session_states sid = none ∧
      ((m.reset_round sid).2).round_counters sid = m.round_counters sid) := by
  refine ⟨roundIdsFor_pairwise sid ops (SessionStateManager.empty α) hclear,
    ?_, ?_⟩
  · intro m cids an
    simp [SessionStateManager.initialize_round]
  · intro m
    constructor
    · cases hm : m.session_states sid with
      | none => simp [SessionStateManager.reset_round, hm]
      | some rs => simp [SessionStateManager.reset_round, hm]
    · exact congrFun (reset_round_keeps_counters m sid) sid

/-- Witness trace for `open_round_ids_strictly_increasing`:
open a round, reset it, open again. -/
def c9trace : List (SessionOp Unit) :=
  [SessionOp.open_round 1 [5] (fun _ => none),
   SessionOp.reset 1,
   SessionOp.open_round 1 [5, 6] (fun _ => none)]

/-- Witness for `open_round_ids_strictly_increasing` on `c9trace`. -/
theorem open_round_ids_strictly_increasing_witness :
    (∀ op ∈ c9trace, clearsSession 1 op = false) ∧
    List.Pairwise (· < ·)
      (roundIdsFor 1 (SessionStateManager.empty Unit) c9trace) := by
  have hcl : ∀ op ∈ c9trace, clearsSession 1 op = false := by
    intro op hop
    simp only [c9trace, List.mem_cons, List.not_mem_nil, or_false] at hop
    rcases hop with rfl | rfl | rfl <;> rfl
  exact ⟨hcl, (open_round_ids_strictly_increasing 1 c9trace hcl).1⟩

/-! ## AI GM service V2 (`app/services/ai_gm_service_v2.py`)

The `action_judgments` and `story_logs` tables are modelled as lists of
records; the autoincrement primary key of `story_logs` as one more than
the largest existing id. -/

/-- A row of `action_judgments` (`app/models.py`); `outcome` is stored
as its string value. -/
structure ActionJudgment where
  id : Nat
  session_id : Int
  character_id : Int
  story_log_id : Option Nat
  action_text : String
  dice_result : Int
  modifier : Int
  final_value : Int
  difficulty : Int
  outcome : String
  phase : Nat
deriving DecidableEq, Repr

/-- A row of `story_logs` (`app/models.py`). -/
structure StoryLog where
  id : Nat
  session_id : Int
  role : String
  content : String
deriving DecidableEq, Repr

/-- The persistent state touched by the service: both tables. -/
structure GameDB where
  judgments : List ActionJudgment
  story_logs : List StoryLog
deriving DecidableEq, Repr

/-- `app/schemas.py`: `DiceResult` — what `confirm_dice_roll` returns. -/
structure DiceResult where
  character_id : Int
  action_text : String
  dice_roll : Int
  modifier : Int
  difficulty : Int
deriving DecidableEq, Repr

/-- The phase-0 filter of `confirm_dice_roll`'s query
(ai_gm_service_v2.py lines 500-504). -/
def isPhase0For (sid cid : Int) (j : ActionJudgment) : Bool :=
  j.session_id == sid && j.character_id == cid && j.phase == 0

/-- One step of `order_by(id desc).first()`: keep the record with the
larger id. -/
def pickLater (a : Option ActionJudgment) (j : ActionJudgment) :
    Option ActionJudgment :=
  match a with
  | none => some j
  | some a' => if a'.id < j.id then some j else some a'

/-- The `order_by(ActionJudgment.id.desc()).first()` of the phase-0
query: the matching record with the greatest id, if any. -/
def mostRecentPhase0 (db : GameDB) (sid cid : Int) : Option ActionJudgment :=
  (db.judgments.filter (isPhase0For sid cid)).foldl pickLater none

/-- `AIGMServiceV2.confirm_dice_roll` (lines 472-533): look up the most
recent phase-0 record for (session, character); raise (here:
`Except.error`, state unchanged) when absent; otherwise advance that
record to phase 2 and return its pre-rolled values. -/
def confirm_dice_roll (db : GameDB) (sid cid : Int) :
    Except String DiceResult × GameDB :=
  match mostRecentPhase0 db sid cid with
  | none => (Except.error "사전 굴림된 주사위 없음", db)
  | some j =>
      (Except.ok { character_id := cid, action_text := j.action_text,
                   dice_roll := j.dice_result, modifier := j.modifier,
                   difficulty := j.difficulty },
       { db with
           judgments :=
             db.judgments.map fun r =>
               if r.id == j.id then { r with phase := 2 } else r })

theorem foldl_pickLater_spec :
    ∀ (l : List ActionJudgment) (acc : Option ActionJudgment)
      (j : ActionJudgment),
      l.foldl pickLater acc = some j →
      (j ∈ l ∨ acc = some j) ∧
      (∀ r ∈ l, r.id ≤ j.id) ∧
      (∀ a, acc = some a → a.id ≤ j.id) := by
  intro l
  induction l with
  | nil =>
      intro acc j h
      simp only [List.foldl_nil] at h
      refine ⟨Or.inr h, by simp, ?_⟩
      intro a ha
      rw [h] at ha
      injection ha with ha'
      rw [ha']
  | cons x l ih =>
      intro acc j h
      rw [List.foldl_cons] at h
      obtain ⟨hmem, hall, hacc⟩ := ih (pickLater acc x) j h
      have hb : ∃ b, pickLater acc x = some b ∧ x.id ≤ b.id ∧
          (∀ a, acc = some a → a.id ≤ b.id) ∧ (b = x ∨ acc = some b) := by
        cases acc with
        | none =>
            refine ⟨x, rfl, le_refl _, ?_, Or.inl rfl⟩
            intro a ha
            simp at ha
        | some a' =>
            by_cases hlt : a'.id < x.id
            · refine ⟨x, by simp [pickLater, hlt], le_refl _, ?_, Or.inl rfl⟩
              intro a ha
              injection ha with ha'
              rw [← ha']
              omega
            · refine ⟨a', by simp [pickLater, hlt], by omega, ?_, Or.inr rfl⟩
              intro a ha
              injection ha with ha'
              rw [ha']
      obtain ⟨b, hbeq, hxb, haccb, hborig⟩ := hb
      have hbj : b.id ≤ j.id := hacc b hbeq
      refine ⟨?_, ?_, ?_⟩
      · rcases hmem with h1 | h1
        · exact Or.inl (List.mem_cons_of_mem _ h1)
        · rw [hbeq] at h1
          injection h1 with h1'
          subst h1'
          rcases hborig with rfl | h2
          · exact Or.inl (List.mem_cons_self _ _)
          · exact Or.inr h2
      · intro r hr
        rcases List.mem_cons.mp hr with rfl | hr'
        · omega
        · exact hall r hr'
      · intro a ha
        exact le_trans (haccb a ha) hbj

/-- C2: `confirm_dice_roll` with no phase-0 record for the (room, actor)
pair fails with the "no pre-rolled result" error and leaves the state
unchanged; with one, the most recent such record (greatest id) is
advanced to phase 2 — all its other fields, in particular the die,
modifier, final value and outcome fixed at pre-roll time, unchanged, and
no other record touched — and the caller receives exactly those stored
values; no new random draw occurs (the operation reads only the stored
record). -/
theorem confirm_dice_roll_spec (db : GameDB) (sid cid : Int) :
    (db.judgments.filter (isPhase0For sid cid) = [] →
      confirm_dice_roll db sid cid =
        (Except.error "사전 굴림된 주사위 없음", db)) ∧
    (∀ j, mostRecentPhase0 db sid cid = some j →
      j ∈ db.judgments ∧ isPhase0For sid cid j = true ∧
      (∀ r ∈ db.judgments, isPhase0For sid cid r = true → r.id ≤ j.id) ∧
      (confirm_dice_roll db sid cid).1 =
        Except.ok { character_id := cid, action_text := j.action_text,
                    dice_roll := j.dice_result, modifier := j.modifier,
                    difficulty := j.difficulty } ∧
      (confirm_dice_roll db sid cid).2.judgments =
        db.judgments.map
          (fun r => if r.id == j.id then { r with phase := 2 } else r) ∧
      ({ j with phase := 2 } : ActionJudgment) ∈
        (confirm_dice_roll db sid cid).2.judgments ∧
      (∀ r ∈ db.judgments, r.id ≠ j.id →
        r ∈ (confirm_dice_roll db sid cid).2.judgments) ∧
      ({ j with phase := 2 } : ActionJudgment).dice_result = j.dice_result ∧
      ({ j with phase := 2 } : ActionJudgment).modifier = j.modifier ∧
      ({ j with phase := 2 } : ActionJudgment).final_value = j.final_value ∧
      ({ j with phase := 2 } : ActionJudgment).outcome = j.outcome) := by
  constructor
  · intro h
    have hmr : mostRecentPhase0 db sid cid = none := by
      unfold mostRecentPhase0
      rw [h]
      rfl
    unfold confirm_dice_roll
    rw [hmr]
  · intro j hj
    have hfold : (db.judgments.filter (isPhase0For sid cid)).foldl
        pickLater none = some j := hj
    obtain ⟨hmem, hall, _⟩ := foldl_pickLater_spec _ none j hfold
    have hjf : j ∈ db.judgments.filter (isPhase0For sid cid) := by
      rcases hmem with h1 | h1
      · exact h1
      · simp at h1
    have hjdb : j ∈ db.judgments := (List.mem_filter.mp hjf).1
    have hjp0 : isPhase0For sid cid j = true := (List.mem_filter.mp hjf).2
    refine ⟨hjdb, hjp0, ?_, ?_, ?_, ?_, ?_, rfl, rfl, rfl, rfl⟩
    · intro r hr hrp0
      exact hall r (List.mem_filter.mpr ⟨hr, hrp0⟩)
    · unfold confirm_dice_roll
      rw [hj]
    · unfold confirm_dice_roll
      rw [hj]
    · unfold confirm_dice_roll
      rw [hj]
      have : (fun r => if r.id == j.id then { r with phase := 2 } else r) j =
          ({ j with phase := 2 } : ActionJudgment) := by
        simp
      rw [← this]
      exact List.mem_map_of_mem _ hjdb
    · intro r hr hne
      unfold confirm_dice_roll
      rw [hj]
      have : (fun r' => if r'.id == j.id then { r' with phase := 2 } else r') r
          = r := by
        simp [hne]
      rw [← this]
      exact List.mem_map_of_mem _ hr

/-- A concrete two-record database for the confirm-roll witness: two
phase-0 pre-rolls for (session 1, character 1), ids 1 and 2, and an
unrelated record for character 9. -/
def c2db : GameDB :=
  { judgments :=
      [{ id := 1, session_id := 1, character_id := 1, story_log_id := none,
         action_text := "old", dice_result := 3, modifier := 1,
         final_value := 4, difficulty := 10, outcome := "failure",
         phase := 0 },
       { id := 2, session_id := 1, character_id := 1, story_log_id := none,
         action_text := "shoot the lock", dice_result := 12, modifier := 3,
         final_value := 15, difficulty := 15, outcome := "success",
         phase := 0 },
       { id := 3, session_id := 1, character_id := 9, story_log_id := none,
         action_text := "other", dice_result := 7, modifier := 0,
         final_value := 7, difficulty := 12, outcome := "failure",
         phase := 2 }],
    story_logs := [] }

/-- Witness for `confirm_dice_roll_spec`: on `c2db`, character 5 (no
pre-roll) gets the error with the state unchanged, while character 1 is
served the most recent pre-roll (id 2): die 12, modifier 3. -/
theorem confirm_dice_roll_spec_witness :
    confirm_dice_roll c2db 1 5 =
      (Except.error "사전 굴림된 주사위 없음", c2db) ∧
    (confirm_dice_roll c2db 1 1).1 =
      Except.ok { character_id := 1, action_text := "shoot the lock",
                  dice_roll := 12, modifier := 3, difficulty := 15 } := by
  constructor
  · exact (confirm_dice_roll_spec c2db 1 5).1 (by decide)
  · have h := (confirm_dice_roll_spec c2db 1 1).2
      { id := 2, session_id := 1, character_id := 1, story_log_id := none,
        action_text := "shoot the lock", dice_result := 12, modifier := 3,
        final_value := 15, difficulty := 15, outcome := "success",
        phase := 0 } (by decide)
    exact h.2.2.2.1

/-- The autoincrement primary key of `story_logs`: one more than every
existing id. -/
def next_story_log_id (db : GameDB) : Nat :=
  (db.story_logs.map StoryLog.id).foldl max 0 + 1

/-- The per-record update of `_save_narrative_to_database` (lines
623-631): a phase-2 record of the session gets the new story-log id and
phase 3; every other record is untouched. -/
def advance_phase2 (sid : Int) (lid : Nat) (r : ActionJudgment) :
    ActionJudgment :=
  if r.session_id == sid && r.phase == 2 then
    { r with story_log_id := some lid, phase := 3 }
  else r

/-- `AIGMServiceV2._save_narrative_to_database` (lines 599-644): insert
one `StoryLog` row with role "AI" and the narrative text, and advance
every phase-2 judgment of the session to phase 3, linked to that row. -/
def save_narrative_to_database (db : GameDB) (sid : Int)
    (narrative : String) : GameDB :=
  let lid := next_story_log_id db
  { judgments := db.judgments.map (advance_phase2 sid lid),
    story_logs := db.story_logs ++
      [{ id := lid, session_id := sid, role := "AI", content := narrative }] }

/-- C3: persisting the streamed narrative creates exactly one narrative
entry holding the concatenated buffer text, advances every phase-2
judgment of the room to phase 3 linked to that entry, and leaves every
record that is not in phase 2 — in particular every phase-0
(unconfirmed) record — unchanged, so an unconfirmed record never
reaches phase 3. -/
theorem save_narrative_spec (db : GameDB) (sid : Int) (b : StreamBuffer) :
    (save_narrative_to_database db sid b.get_full_text).story_logs =
      db.story_logs ++
        [{ id := next_story_log_id db, session_id := sid, role := "AI",
           content := String.join b.tokens }] ∧
    (save_narrative_to_database db sid b.get_full_text).judgments =
      db.judgments.map (advance_phase2 sid (next_story_log_id db)) ∧
    (∀ r : ActionJudgment, r.session_id = sid → r.phase = 2 →
      advance_phase2 sid (next_story_log_id db) r =
        { r with story_log_id := some (next_story_log_id db), phase := 3 }) ∧
    (∀ r : ActionJudgment, r.phase ≠ 2 →
      advance_phase2 sid (next_story_log_id db) r = r) ∧
    (∀ r ∈ db.judgments, r.phase = 0 →
      r ∈ (save_narrative_to_database db sid b.get_full_text).judgments) := by
  refine ⟨rfl, rfl, ?_, ?_, ?_⟩
  · intro r h1 h2
    unfold advance_phase2
    simp [h1, h2]
  · intro r h
    unfold advance_phase2
    have : (r.phase == 2) = false := by
      exact beq_eq_false_iff_ne.mpr h
    simp [this]
  · intro r hr h0
    have hfix : advance_phase2 sid (next_story_log_id db) r = r := by
      unfold advance_phase2
      have : (r.phase == 2) = false := by
        rw [h0]
        decide
      simp [this]
    have : r ∈ db.judgments.map (advance_phase2 sid (next_story_log_id db)) := by
      rw [← hfix]
      exact List.mem_map_of_mem _ hr
    exact this

/-- Witness for `save_narrative_spec`: a database with one phase-2 and
one phase-0 record and a two-token buffer; the phase-0 record survives
untouched and the story log holds the joined text. -/
theorem save_narrative_spec_witness :
    (save_narrative_to_database c2db 1
      (StreamBuffer.mk 1 ["ab", "c"] true none 3 100).get_full_text).story_logs
        = [{ id := 1, session_id := 1, role := "AI", content := "abc" }] ∧
    ({ id := 1, session_id := 1, character_id := 1, story_log_id := none,
       action_text := "old", dice_result := 3, modifier := 1,
       final_value := 4, difficulty := 10, outcome := "failure",
       phase := 0 } : ActionJudgment) ∈
      (save_narrative_to_database c2db 1
        (StreamBuffer.mk 1 ["ab", "c"] true none 3 100).get_full_text).judgments := by
  have h := save_narrative_spec c2db 1
    (StreamBuffer.mk 1 ["ab", "c"] true none 3 100)
  constructor
  · rw [h.1]
    decide
  · exact h.2.2.2.2 _ (by decide) rfl

/-! ## Judgment node (`app/services/ai_nodes/judgment_node.py`)

The external LLM judge call (`_determine_difficulty_with_ai`) is
modelled as an explicit input: either it raised (exception path, lines
100-105) or it produced the difficulty dictionary returned by
`_parse_dc_response` — which on a malformed or unparseable response is
the empty dictionary (lines 278-304). -/

/-- `app/services/dice_system.py` / `app/schemas.py`: the six D&D
action types. -/
inductive ActionType where
  | strength
  | dexterity
  | constitution
  | intelligence
  | wisdom
  | charisma
deriving DecidableEq, Repr

/-- `app/schemas.py`: `CharacterSheet` — id plus six ability scores. -/
structure CharacterSheet where
  id : Int
  strength : Int
  dexterity : Int
  constitution : Int
  intelligence : Int
  wisdom : Int
  charisma : Int
deriving DecidableEq, Repr

/-- `app/schemas.py`: `PlayerAction`. -/
structure PlayerAction where
  character_id : Int
  action_text : String
  action_type : ActionType
deriving DecidableEq, Repr

/-- `app/schemas.py`: `ActionAnalysis` — the phase-1 result. -/
structure ActionAnalysis where
  character_id : Int
  action_text : String
  action_type : ActionType
  modifier : Int
  difficulty : Int
  difficulty_reasoning : String
deriving DecidableEq, Repr

/-- One entry of the dictionary built by `_parse_dc_response`. -/
structure DcInfo where
  difficulty : Int
  reasoning : String
deriving DecidableEq, Repr

/-- Outcome of the external judge call as seen by
`analyze_and_judge_actions`: either the parsed per-character dictionary
(empty when the response was malformed or unparseable) or an
exception. -/
inductive JudgeReply where
  | parsed (dcMap : Int → Option DcInfo)
  | raised (msg : String)

/-- `judgment_node.py` lines 123-132: the ability score selected by the
action type. -/
def abilityScoreFor (c : CharacterSheet) : ActionType → Int
  | ActionType.strength => c.strength
  | ActionType.dexterity => c.dexterity
  | ActionType.constitution => c.constitution
  | ActionType.intelligence => c.intelligence
  | ActionType.wisdom => c.wisdom
  | ActionType.charisma => c.charisma

/-- `judgment_node._calculate_modifier` (lines 110-135):
`(ability_score - 10) // 2`. -/
def judgment_calculate_modifier (c : CharacterSheet) (t : ActionType) : Int :=
  (abilityScoreFor c t - 10).fdiv 2

/-- Lines 89-106 of `analyze_and_judge_actions`: apply the judge's
difficulty results (or the fallback) to the prepared analyses.  On the
success path each difficulty is clamped to [5, 30] (line 96); missing
characters get difficulty 15 and the default reasoning; on the
exception path every analysis gets difficulty 15 and a reasoning noting
the AI error. -/
def apply_dc_results (analyses : List ActionAnalysis) (reply : JudgeReply) :
    List ActionAnalysis :=
  match reply with
  | JudgeReply.raised e =>
      analyses.map fun a =>
        { a with difficulty := 15,
                 difficulty_reasoning := "기본 난이도 적용 (AI 오류: " ++ e ++ ")" }
  | JudgeReply.parsed m =>
      analyses.map fun a =>
        match m a.character_id with
        | some info =>
            { a with difficulty := max 5 (min 30 info.difficulty),
                     difficulty_reasoning := info.reasoning }
        | none =>
            { a with difficulty := max 5 (min 30 15),
                     difficulty_reasoning := "기본 난이도 적용" }

/-- `analyze_and_judge_actions` (judgment_node.py lines 20-107): build
one base analysis per action whose character exists (modifier from the
sheet, provisional difficulty 15), raise when none remain, then apply
the judge's results. -/
def analyze_and_judge_actions (player_actions : List PlayerAction)
    (characters : List CharacterSheet) (reply : JudgeReply) :
    Except String (List ActionAnalysis) :=
  let base := player_actions.filterMap fun action =>
    (characters.reverse.find? fun c => c.id == action.character_id).map fun c =>
      { character_id := action.character_id,
        action_text := action.action_text,
        action_type := action.action_type,
        modifier := judgment_calculate_modifier c action.action_type,
        difficulty := 15,
        difficulty_reasoning := "" }
  if base.isEmpty then Except.error "No valid actions to analyze"
  else Except.ok (apply_dc_results base reply)

/-- C4: phase-1 judge degradation.  Whenever
`analyze_and_judge_actions` succeeds: every produced difficulty lies in
[5, 30]; if the judge raised, every actor got difficulty 15 with a
reasoning noting the AI error; if the judge's output was unparseable
(empty dictionary), every actor got difficulty 15 with the default
reasoning; and whether phase 1 fails does not depend on the judge's
reply at all. -/
theorem analyze_and_judge_degradation (player_actions : List PlayerAction)
    (characters : List CharacterSheet) (reply : JudgeReply)
    (out : List ActionAnalysis)
    (hout : analyze_and_judge_actions player_actions characters reply =
      Except.ok out) :
    (∀ a ∈ out, 5 ≤ a.difficulty ∧ a.difficulty ≤ 30) ∧
    (∀ msg, reply = JudgeReply.raised msg →
      ∀ a ∈ out, a.difficulty = 15 ∧
        a.difficulty_reasoning = "기본 난이도 적용 (AI 오류: " ++ msg ++ ")") ∧
    (reply = JudgeReply.parsed (fun _ => none) →
      ∀ a ∈ out, a.difficulty = 15 ∧
        a.difficulty_reasoning = "기본 난이도 적용") ∧
    (∀ reply' : JudgeReply,
      (analyze_and_judge_actions player_actions characters reply').isOk =
      (analyze_and_judge_actions player_actions characters reply).isOk) := by
  unfold analyze_and_judge_actions at hout
  by_cases hbase : (player_actions.filterMap fun action =>
      (characters.reverse.find? fun c => c.id == action.character_id).map
        fun c =>
          ({ character_id := action.character_id,
             action_text := action.action_text,
             action_type := action.action_type,
             modifier := judgment_calculate_modifier c action.action_type,
             difficulty := 15,
             difficulty_reasoning := "" } : ActionAnalysis)).isEmpty
  · rw [if_pos hbase] at hout
    cases hout
  · rw [if_neg hbase] at hout
    injection hout with hinj
    refine ⟨?_, ?_, ?_, ?_⟩
    · intro a ha
      rw [← hinj] at ha
      cases reply with
      | raised e =>
          unfold apply_dc_results at ha
          obtain ⟨a0, _, ha0⟩ := List.mem_map.mp ha
          rw [← ha0]
          constructor <;> simp
      | parsed m =>
          unfold apply_dc_results at ha
          obtain ⟨a0, _, ha0⟩ := List.mem_map.mp ha
          rw [← ha0]
          cases m a0.character_id with
          | none => constructor <;> simp
          | some info => constructor <;> simp
    · intro msg hmsg a ha
      subst hmsg
      rw [← hinj] at ha
      unfold apply_dc_results at ha
      obtain ⟨a0, _, ha0⟩ := List.mem_map.mp ha
      rw [← ha0]
      exact ⟨rfl, rfl⟩
    · intro hrep a ha
      subst hrep
      rw [← hinj] at ha
      unfold apply_dc_results at ha
      obtain ⟨a0, _, ha0⟩ := List.mem_map.mp ha
      rw [← ha0]
      exact ⟨rfl, rfl⟩
    · intro reply'
      unfold analyze_and_judge_actions
      rw [if_neg hbase, if_neg hbase]
      rfl

/-- Witness for `analyze_and_judge_degradation`: one action by a
character with strength 16 while the judge raises "boom" yields a
single analysis with modifier +3, difficulty 15 and the fallback
reasoning. -/
theorem analyze_and_judge_degradation_witness :
    analyze_and_judge_actions
      [{ character_id := 1, action_text := "force the door",
         action_type := ActionType.strength }]
      [{ id := 1, strength := 16, dexterity := 10, constitution := 10,
         intelligence := 10, wisdom := 10, charisma := 10 }]
      (JudgeReply.raised "boom") =
      Except.ok
        [{ character_id := 1, action_text := "force the door",
           action_type := ActionType.strength, modifier := 3,
           difficulty := 15,
           difficulty_reasoning := "기본 난이도 적용 (AI 오류: boom)" }] ∧
    (5 : Int) ≤ 15 ∧ (15 : Int) ≤ 30 := by
  have hout : analyze_and_judge_actions
      [{ character_id := 1, action_text := "force the door",
         action_type := ActionType.strength }]
      [{ id := 1, strength := 16, dexterity := 10, constitution := 10,
         intelligence := 10, wisdom := 10, charisma := 10 }]
      (JudgeReply.raised "boom") =
      Except.ok
        [{ character_id := 1, action_text := "force the door",
           action_type := ActionType.strength, modifier := 3,
           difficulty := 15,
           difficulty_reasoning := "기본 난이도 적용 (AI 오류: boom)" }] := by
    rfl
  have h := analyze_and_judge_degradation _ _ _ _ hout
  refine ⟨hout, ?_⟩
  exact h.1 _ (by rw [hout.symm] at *; exact List.mem_singleton.mpr rfl)

end TRPGWorld
